import Mathlib

/-!
Verification of the document string scanner (HTMLDomStrings), the pipeline
state machine (AbstractMathDocument), and two layout wrappers (mfrac, ms)
of the mathjax-v3 core.

Modelling conventions:
* Host-tree (DOM) nodes are modelled by the inductive `DomNode`: a text node
  carries its character data (JS strings are modelled as `List Char`), an
  element carries its kind (tag name), its attribute list, and its children.
  The adaptor operations `next`/`firstChild` of the source become list
  structure: the scanner's current position is the list consisting of the
  current node followed by its remaining siblings.
* JS attribute truthiness (`getAttribute` returns null or a string, and both
  null and the empty string are falsy) is modelled by `attrTruthy`.
* The class-pattern regular expressions `(?:^| )(?:name)(?: |$)` of the source
  match one whole space-delimited token of the class attribute; they are
  modelled by membership in the space-delimited tokens of the class value.
  The skip-tag regular expression `^(?:t1|t2|...)$` (case-insensitive) is
  modelled by case-insensitive membership in the tag list.
* Numeric layout quantities (JS numbers) are modelled as rationals.
-/

/-- Host-tree node: either a text node with its character data, or an element
with a kind (tag name), an attribute list and a list of children. -/
inductive DomNode where
  | text (value : List Char)
  | elem (kind : String) (attrs : List (String × String)) (children : List DomNode)

/-- Character data of a node (the adaptor's `value`, empty for elements). -/
def DomNode.value : DomNode → List Char
  | .text v => v
  | .elem _ _ _ => []

mutual

/-- Number of nodes in a tree (used as the traversal termination measure). -/
def nodeSize : DomNode → Nat
  | .text _ => 1
  | .elem _ _ cs => 1 + listSize cs

/-- Number of nodes in a forest. -/
def listSize : List DomNode → Nat
  | [] => 0
  | n :: rest => nodeSize n + listSize rest

end

/-- Total size of the resume points held on the traversal stack. -/
def stackWeight (stk : List (List DomNode × Bool)) : Nat :=
  (stk.map (fun p => listSize p.1)).sum

/-- Attribute lookup (the adaptor's `getAttribute`): `none` models null. -/
def attrValue? (attrs : List (String × String)) (name : String) : Option String :=
  (attrs.find? (fun p => p.1 == name)).map (fun p => p.2)

/-- JS truthiness of an attribute value: null and the empty string are falsy. -/
def attrTruthy : Option String → Bool
  | none => false
  | some s => s != ""

/-- The node's class attribute with the source's `|| ''` default. -/
def className (attrs : List (String × String)) : String :=
  (attrValue? attrs "class").getD ""

/-- Splitting of a class attribute value into its space-delimited tokens
(the accumulator holds the current token reversed). -/
def tokenSplitAux : List Char → List Char → List (List Char)
  | [], acc => [acc.reverse]
  | ' ' :: rest, acc => acc.reverse :: tokenSplitAux rest []
  | c :: rest, acc => tokenSplitAux rest (c :: acc)

/-- Whole-token class matching, modelling the `(?:^| )(?:pat)(?: |$)` regexp
built by `getPatterns` from the ignoreClass / processClass option. -/
def classMatch (pats : List String) (cname : String) : Bool :=
  (tokenSplitAux cname.data []).any (fun tok => pats.any (fun p => p.data == tok))

/-- Full-tag matching, modelling the case-insensitive `^(?:t1|t2|...)$` regexp
built by `getPatterns` from the skipTags option. -/
def skipMatch (tags : List String) (kind : String) : Bool :=
  tags.any (fun t => t.data.map Char.toLower == kind.data.map Char.toLower)

/-- The scanner options resolved at construction (skipTags, includeTags,
ignoreClass, processClass). -/
structure ScannerConfig where
  skipTags : List String
  includeTags : List (String × List Char)
  ignoreClass : List String
  processClass : List String

/-- The default OPTIONS of HTMLDomStrings. -/
def defaultScannerOptions : ScannerConfig :=
  { skipTags := ["script", "noscript", "style", "textarea", "pre", "code",
                 "annotation", "annotation-xml"],
    includeTags := [("br", ['\n']), ("wbr", []), ("#comment", [])],
    ignoreClass := ["tex2jax_ignore"],
    processClass := ["tex2jax_process"] }

/-- Lookup in the includeTags option (`include[kind] !== undefined`). -/
def includeLookup (cfg : ScannerConfig) (kind : String) : Option (List Char) :=
  (cfg.includeTags.find? (fun p => p.1 == kind)).map (fun p => p.2)

namespace HTMLDomStrings

/-- The scanner's mutable working state: the accumulated strings, their
provenance lists, the string being constructed, and its provenance buffer. -/
structure ScanState where
  strings : List (List Char)
  nodes : List (List (DomNode × Nat))
  string : List Char
  snodes : List (DomNode × Nat)

/-- The state set by `init()`. -/
def initState : ScanState :=
  { strings := [], nodes := [], string := [], snodes := [] }

/-- Method `pushString`: if the in-progress string contains a non-whitespace
character (the `/\S/` match), push it and its provenance buffer onto the
results; in every case reset the two buffers. -/
def pushString (st : ScanState) : ScanState :=
  let st' :=
    if st.string.any (fun c => !c.isWhitespace) then
      { st with strings := st.strings ++ [st.string], nodes := st.nodes ++ [st.snodes] }
    else
      st
  { st' with string := [], snodes := [] }

/-- Method `extendString`: record (node, text length) in the provenance buffer
and append the text to the in-progress string. -/
def extendString (node : DomNode) (text : List Char) (st : ScanState) : ScanState :=
  { st with snodes := st.snodes ++ [(node, text.length)],
            string := st.string ++ text }

/-- Method `handleText`: unless ignoring, add the text node's character data
to the current string (advancing to the next sibling is done by the loop). -/
def handleText (node : DomNode) (ignore : Bool) (st : ScanState) : ScanState :=
  if ignore then st else extendString node node.value st

/-- Method `handleTag`: unless ignoring, add the include-tag replacement text
for the node (advancing to the next sibling is done by the loop). -/
def handleTag (node : DomNode) (text : List Char) (ignore : Bool) (st : ScanState) : ScanState :=
  if ignore then st else extendString node text st

/-- Result of `handleContainer`: the next position, the new ignore flag, the
new stack, and the new scan state. -/
structure ContainerStep where
  next : List DomNode
  ignore : Bool
  stack : List (List DomNode × Bool)
  st : ScanState

/-- Method `handleContainer`: flush the in-progress string; descend into the
children iff the node has a child, is not marked `data-MJX` (truthy value),
and either its class matches the process pattern or its kind does not match
the skip pattern.  When descending, push the (nonempty) following-sibling
position with the current ignore flag, and compute the new ignore flag as
(ignore OR class matches ignore pattern) AND NOT process.  Otherwise move on
to the following siblings. -/
def handleContainer (cfg : ScannerConfig) (k : String) (attrs : List (String × String))
    (cs rest : List DomNode) (ignore : Bool) (stk : List (List DomNode × Bool))
    (st : ScanState) : ContainerStep :=
  let st' := pushString st
  let cname := className attrs
  let process := classMatch cfg.processClass cname
  if cs.isEmpty = false ∧ attrTruthy (attrValue? attrs "data-MJX") = false ∧
     (process = true ∨ skipMatch cfg.skipTags k = false) then
    { next := cs,
      ignore := (ignore || classMatch cfg.ignoreClass cname) && !process,
      stack := if rest.isEmpty then stk else (rest, ignore) :: stk,
      st := st' }
  else
    { next := rest, ignore := ignore, stack := stk, st := st' }

/-- The `find` while-loop.  The current position is the list `cur` of the
current node followed by its remaining siblings; `stk` is the stack of
(resume position, ignore flag) pairs.  When the position is exhausted and the
stack is nonempty, the current string is flushed and the position and ignore
flag are popped from the stack. -/
def scanLoop (cfg : ScannerConfig) :
    List DomNode → Bool → List (List DomNode × Bool) → ScanState → ScanState
  | [], _, [], st => st
  | [], _, (ns, ig) :: stk, st => scanLoop cfg ns ig stk (pushString st)
  | DomNode.text v :: rest, ignore, stk, st =>
      scanLoop cfg rest ignore stk (handleText (DomNode.text v) ignore st)
  | DomNode.elem k attrs cs :: rest, ignore, stk, st =>
      match includeLookup cfg k with
      | some t =>
          scanLoop cfg rest ignore stk (handleTag (DomNode.elem k attrs cs) t ignore st)
      | none =>
          scanLoop cfg (handleContainer cfg k attrs cs rest ignore stk st).next
            (handleContainer cfg k attrs cs rest ignore stk st).ignore
            (handleContainer cfg k attrs cs rest ignore stk st).stack
            (handleContainer cfg k attrs cs rest ignore stk st).st
termination_by cur _ stk _ => 2 * (listSize cur + stackWeight stk) + stk.length
decreasing_by
  · simp [stackWeight, listSize]
  · simp [listSize, nodeSize]
  · simp [listSize, nodeSize]
  · simp only [handleContainer]
    split
    · cases rest with
      | nil => simp [listSize, nodeSize, stackWeight]
      | cons b l =>
          simp [listSize, nodeSize, stackWeight, List.isEmpty]
          omega
    · simp [listSize, nodeSize, stackWeight]

/-- Method `find`: initialise the state, run the loop over the root node
(the sibling after the root is the stop node, so only the root's subtree is
scanned), flush the final string, and return the strings with their
provenance lists. -/
def find (cfg : ScannerConfig) (root : DomNode) :
    List (List Char) × List (List (DomNode × Nat)) :=
  let st := scanLoop cfg [root] false [] initState
  let st' := pushString st
  (st'.strings, st'.nodes)

end HTMLDomStrings

/-- Sum of the consumed-length entries of one provenance list. -/
def provSum (l : List (DomNode × Nat)) : Nat :=
  (l.map Prod.snd).sum

/-- Invariant of the scanner state: the in-progress string is as long as its
provenance buffer records, and each accumulated string is exactly as long as
its accumulated provenance list records (pointwise, in order). -/
def ScanInv (st : HTMLDomStrings.ScanState) : Prop :=
  st.string.length = provSum st.snodes ∧
  List.Forall₂ (fun s l => List.length s = provSum l) st.strings st.nodes

/-- Errors thrown by the external input/output processors: the message and
the JS `retry` / `restart` control-flow fields inspected by the pipeline. -/
structure MathError where
  message : String
  retry : Bool
  restart : Bool

/-- Internal (MathML) tree node, as built by the error MmlFactory. -/
inductive MmlNode where
  | node (kind : String) (attrs : List (String × String)) (children : List MmlNode)
  | textNode (s : String)

/-- Attribute update on an internal node (`attributes.set`): replace the value
if the name is present, otherwise append the pair. -/
def MmlNode.setAttr : MmlNode → String → String → MmlNode
  | .node k attrs cs, name, val =>
      .node k
        (if attrs.any (fun p => p.1 == name) then
           attrs.map (fun p => if p.1 == name then (name, val) else p)
         else attrs ++ [(name, val)])
        cs
  | .textNode s, _, _ => .textNode s

/-- Attribute lookup on an internal node. -/
def MmlNode.getAttr : MmlNode → String → Option String
  | .node _ attrs _, name => (attrs.find? (fun p => p.1 == name)).map (fun p => p.2)
  | .textNode _, _ => none

/-- Host-tree node built through the adaptor (`adaptor.node` / `adaptor.text`),
used by the typeset error fallback. -/
inductive HNode where
  | node (tag : String) (attrs : List (String × String)) (children : List HNode)
  | text (s : String)

/-- Attribute lookup on a constructed host node. -/
def HNode.getAttr : HNode → String → Option String
  | .node _ attrs _, name => (attrs.find? (fun p => p.1 == name)).map (fun p => p.2)
  | .text _, _ => none

namespace STATE

/-- Modelled from the spec: the item-state constants of AbstractMathItem.STATE
(the MathItem module is not part of the given sources); the spec fixes only
their strict ordering Unfound < Found < Compiled < Typeset < Inserted. -/
def UNPROCESSED : Nat := 0

/-- Modelled from the spec: the Found stage constant. -/
def FOUND : Nat := 1

/-- Modelled from the spec: the Compiled stage constant. -/
def COMPILED : Nat := 2

/-- Modelled from the spec: the Typeset stage constant. -/
def TYPESET : Nat := 3

/-- Modelled from the spec: the Inserted stage constant. -/
def INSERTED : Nat := 4

end STATE

/-- One MathItem as seen by the pipeline: its display-mode flag, the result
the external input processor would produce for it (`doCompile` models the
`math.compile(document)` call, whose success assigns the compiled root and
advances the item state — modelled from the spec, as MathItem is not part of
the given sources), the compiled root, the recorded input error
(`inputData['error']`), the typeset root, and the item state. -/
structure MathItem where
  display : Bool
  doCompile : Except MathError MmlNode
  root : Option MmlNode
  inputError : Option MathError
  typesetRoot : Option HNode
  state : Nat

/-- The document's coarse per-stage processed flags. -/
structure Processed where
  findMath : Bool
  compile : Bool
  getMetrics : Bool
  typeset : Bool
  updateDocument : Bool

/-- The MathDocument: the host document (abstract type `H`), the MathList in
document order, and the processed flags. -/
structure MathDocument (H : Type) where
  document : H
  math : List MathItem
  processed : Processed

namespace MathDocument

/-- Default `compileError` handler (`AbstractMathDocument.compileError`):
set the item's root to a fresh `math [merror [mtext [text 'Math input error']]]`
tree carrying the error message in `data-mjx-error`, and set `display='block'`
when the item is in display mode. -/
def compileError (it : MathItem) (err : MathError) : MathItem :=
  let root := MmlNode.node "math" [("data-mjx-error", err.message)]
    [MmlNode.node "merror" []
      [MmlNode.node "mtext" [] [MmlNode.textNode "Math input error"]]]
  let root := if it.display then root.setAttr "display" "block" else root
  { it with root := some root }

/-- Default `typesetError` handler (`AbstractMathDocument.typesetError`):
set the item's typeset root to a span carrying the error message in
`data-mjx-error` around the text 'Math output error'. -/
def typesetError (it : MathItem) (err : MathError) : MathItem :=
  { it with typesetRoot := some (HNode.node "span"
      [("data-mjx-error", err.message)] [HNode.text "Math output error"]) }

/-- The loop body of `compile()`: iterate the MathList in forward order.  On a
per-item failure flagged `retry` or `restart` the error is rethrown, leaving
the remaining items untouched; any other failure invokes the configured
`compileError` handler and records the error on the item, and the pass
continues. -/
def compileLoop (handler : MathItem → MathError → MathItem) :
    List MathItem → List MathItem × Option MathError
  | [] => ([], none)
  | it :: rest =>
      match it.doCompile with
      | .ok tree =>
          let r := compileLoop handler rest
          ({ it with root := some tree, state := STATE.COMPILED } :: r.1, r.2)
      | .error err =>
          if err.retry || err.restart then
            (it :: rest, some err)
          else
            let it' := { handler it err with inputError := some err }
            let r := compileLoop handler rest
            (it' :: r.1, r.2)

/-- Method `compile()`: if not yet processed, run the loop; the `compile`
processed flag is set only when no error escaped the loop (a thrown retry /
restart error skips the assignment).  The second component is the escaping
error, if any. -/
def compile {H : Type} (handler : MathItem → MathError → MathItem)
    (doc : MathDocument H) : MathDocument H × Option MathError :=
  if doc.processed.compile then (doc, none)
  else
    let r := compileLoop handler doc.math
    match r.2 with
    | some e => ({ doc with math := r.1 }, some e)
    | none =>
        ({ doc with math := r.1,
                    processed := { doc.processed with compile := true } }, none)

/-- Method `state(state, restore)`: set every item's state to the target
(item-level effects of `math.state` are modelled from the spec, as MathItem is
not part of the given sources; `restore` is merely passed down), then clear
the processed flags of the stages strictly above the target. -/
def state {H : Type} (doc : MathDocument H) (target : Nat) (restore : Bool) :
    MathDocument H :=
  let math := doc.math.map (fun it => { it with state := target })
  let p := doc.processed
  let p := if target < STATE.INSERTED then { p with updateDocument := false } else p
  let p := if target < STATE.TYPESET then { p with typeset := false, getMetrics := false } else p
  let p := if target < STATE.COMPILED then { p with compile := false } else p
  { doc with math := math, processed := p }

/-- Method `updateDocument()`: if not yet processed, iterate the MathList in
reverse order, applying each item's `updateDocument` splice (modelled by the
function `upd`, as MathItem is not part of the given sources) to the host
document, then set the `updateDocument` processed flag. -/
def updateDocument {H : Type} (upd : MathItem → H → H) (doc : MathDocument H) :
    MathDocument H :=
  if doc.processed.updateDocument then doc
  else
    { doc with
      document := doc.math.reverse.foldl (fun d it => upd it d) doc.document,
      processed := { doc.processed with updateDocument := true } }

end MathDocument

/-- Abort discriminant of one item's compile result: the thrown error carries
a truthy `retry` or `restart` field. -/
def aborting (it : MathItem) : Bool :=
  match it.doCompile with
  | .error e => e.retry || e.restart
  | .ok _ => false

/-- The per-item effect of one non-aborting `compile()` loop iteration:
success assigns the compiled root, failure applies the handler and records
the error. -/
def stepItem (handler : MathItem → MathError → MathItem) (it : MathItem) : MathItem :=
  match it.doCompile with
  | .ok tree => { it with root := some tree, state := STATE.COMPILED }
  | .error err => { handler it err with inputError := some err }

/-- Bounding box data used by the fraction layout: width, height above the
baseline, depth below the baseline, and scale. -/
structure BBox where
  w : ℚ
  h : ℚ
  d : ℚ
  scale : ℚ

/-- Font parameters consumed by `getUVQ` (this.font.params). -/
structure FontParams where
  num1 : ℚ
  num2 : ℚ
  num3 : ℚ
  denom1 : ℚ
  denom2 : ℚ
  axis_height : ℚ
  rule_thickness : ℚ

/-- Result of `getUVQ`: numerator offset, denominator offset, separation, and
the two child boxes. -/
structure UVQ where
  u : ℚ
  v : ℚ
  q : ℚ
  nbox : BBox
  dbox : BBox

/-- Method `getUVQ` of the mfrac wrapper (atop layout): start from the
style-dependent offsets, compare the raw separation against the minimum
(7 or 3 times the rule thickness), and push both offsets apart by half the
shortfall when the raw separation is too small.  The child boxes are the
numerator and denominator bounding boxes of the wrapper. -/
def getUVQ (tex : FontParams) (nbox dbox : BBox) (display : Bool) : UVQ :=
  let u := if display then tex.num1 else tex.num3
  let v := if display then tex.denom1 else tex.denom2
  let p := (if display then (7 : ℚ) else 3) * tex.rule_thickness
  let q := (u - nbox.d * nbox.scale) - (dbox.h * dbox.scale - v)
  if q < p then
    { u := u + (p - q) / 2, v := v + (p - q) / 2, q := p, nbox := nbox, dbox := dbox }
  else
    { u := u, v := v, q := q, nbox := nbox, dbox := dbox }

/-- An ms (quoted text) node's explicit lquote / rquote attributes; `none`
models an attribute that is not explicitly set (`attributes.isSet` false). -/
structure MsNode where
  lquote : Option String
  rquote : Option String

/-- Modelled from the spec: the default value of the lquote and rquote
attributes is the plain double-quote character (the MmlMs node class holding
the attribute defaults is not part of the given sources). -/
def msDefaultQuote : String := "\""

/-- Quote selection of the CommonMs constructor: read the lquote / rquote
values (explicit or default); outside the monospace variant, an unset quote
whose value is the plain double quote is replaced by the typographic left /
right double quotation mark. -/
def msQuotes (variant : String) (node : MsNode) : String × String :=
  let lq := node.lquote.getD msDefaultQuote
  let rq := node.rquote.getD msDefaultQuote
  if variant ≠ "monospace" then
    (if node.lquote.isNone && (lq == "\"") then "“" else lq,
     if node.rquote.isNone && (rq == "\"") then "”" else rq)
  else
    (lq, rq)

/-- Child-sequence construction of the CommonMs constructor: prepend a
synthesized left-quote text wrapper and append a synthesized right-quote text
wrapper to the existing child sequence (`createText` models the wrapper
synthesis `this.createText`). -/
def msChildNodes {W : Type} (createText : String → W) (variant : String)
    (node : MsNode) (children : List W) : List W :=
  let quotes := msQuotes variant node
  createText quotes.1 :: children ++ [createText quotes.2]

/-- The adaptor's `getAttribute` on a host node. -/
def DomNode.getAttribute : DomNode → String → Option String
  | .elem _ attrs _, name => attrValue? attrs name
  | .text _, _ => none

/-- Initial numerator offset of the atop layout (num1 display, num3 inline). -/
def atopU0 (tex : FontParams) (display : Bool) : ℚ :=
  if display then tex.num1 else tex.num3

/-- Initial denominator offset of the atop layout (denom1 display, denom2 inline). -/
def atopV0 (tex : FontParams) (display : Bool) : ℚ :=
  if display then tex.denom1 else tex.denom2

/-- Minimum separation of the atop layout (7 or 3 times the rule thickness). -/
def atopMinSep (tex : FontParams) (display : Bool) : ℚ :=
  (if display then (7 : ℚ) else 3) * tex.rule_thickness

/-- Raw separation of the atop layout at the initial offsets. -/
def atopRawGap (tex : FontParams) (nbox dbox : BBox) (display : Bool) : ℚ :=
  (atopU0 tex display - nbox.d * nbox.scale) - (dbox.h * dbox.scale - atopV0 tex display)

/-- Concrete scan state with a whitespace-only in-progress string. -/
def stW : HTMLDomStrings.ScanState :=
  { strings := [['a']], nodes := [[(DomNode.text ['a'], 1)]],
    string := [' '], snodes := [(DomNode.text [' '], 1)] }

/-- Concrete host node carrying the reserved `data-mjx-error` attribute (but
no `data-MJX` attribute), with a text child. -/
def exC5span : DomNode :=
  DomNode.elem "span" [("data-mjx-error", "oops")] [DomNode.text ['h', 'i']]

/-- Concrete host tree whose only text sits inside `exC5span`. -/
def exC5tree : DomNode := DomNode.elem "div" [] [exC5span]

/-- Processed-flag record with every flag false. -/
def procNone : Processed :=
  { findMath := false, compile := false, getMetrics := false,
    typeset := false, updateDocument := false }

/-- Processed-flag record with every flag true. -/
def procAll : Processed :=
  { findMath := true, compile := true, getMetrics := true,
    typeset := true, updateDocument := true }

/-- Concrete item whose compilation succeeds, with a given state value. -/
def stItem (n : Nat) : MathItem :=
  { display := false, doCompile := Except.ok (MmlNode.textNode "t"),
    root := none, inputError := none, typesetRoot := none, state := n }

/-- Concrete item whose compilation fails with a plain (non-retriable) error. -/
def badItem : MathItem :=
  { display := true,
    doCompile := Except.error { message := "bad", retry := false, restart := false },
    root := none, inputError := none, typesetRoot := none, state := 0 }

/-- Concrete document with one succeeding and one plainly failing item. -/
def docW2 : MathDocument (List Nat) :=
  { document := [], math := [stItem 0, badItem], processed := procNone }

/-- Concrete document after a full run (all flags set). -/
def docW3 : MathDocument (List Nat) :=
  { document := [], math := [stItem 7], processed := procAll }

/-- Concrete document with three items and no processing done. -/
def docW6 : MathDocument (List Nat) :=
  { document := [], math := [stItem 1, stItem 2, stItem 3], processed := procNone }

/-- Concrete splice action recording the item's state value on the host. -/
def updW : MathItem → List Nat → List Nat := fun it h => h ++ [it.state]

/-- Concrete font parameters for the atop witness. -/
def texW : FontParams :=
  { num1 := 0, num2 := 0, num3 := 0, denom1 := 0, denom2 := 0,
    axis_height := 0, rule_thickness := 1 }

/-- Concrete numerator box (descent 1) for the atop witness. -/
def nboxW : BBox := { w := 0, h := 0, d := 1, scale := 1 }

/-- Concrete denominator box (ascent 1) for the atop witness. -/
def dboxW : BBox := { w := 0, h := 1, d := 0, scale := 1 }

open HTMLDomStrings in
/-- The container step always leaves the scan state flushed: its state
component is `pushString` of the incoming state, in both branches. -/
theorem handleContainer_st (cfg : ScannerConfig) (k : String)
    (attrs : List (String × String)) (cs rest : List DomNode) (ignore : Bool)
    (stk : List (List DomNode × Bool)) (st : ScanState) :
    (handleContainer cfg k attrs cs rest ignore stk st).st = pushString st := by
  simp [handleContainer, apply_ite ContainerStep.st]

open HTMLDomStrings in
/-- `extendString` preserves the scan-state invariant. -/
theorem scanInv_extendString (n : DomNode) (t : List Char) (st : ScanState)
    (h : ScanInv st) : ScanInv (extendString n t st) := by
  obtain ⟨h1, h2⟩ := h
  refine ⟨?_, h2⟩
  simp [extendString, provSum, h1]

open HTMLDomStrings in
/-- `pushString` preserves the scan-state invariant. -/
theorem scanInv_pushString (st : ScanState) (h : ScanInv st) :
    ScanInv (pushString st) := by
  obtain ⟨h1, h2⟩ := h
  by_cases hc : st.string.any (fun c => !c.isWhitespace) = true
  · refine ⟨by simp [pushString, hc, provSum], ?_⟩
    simp only [pushString, hc, if_pos]
    exact List.rel_append h2 (List.Forall₂.cons h1 List.Forall₂.nil)
  · refine ⟨by simp [pushString, hc, provSum], ?_⟩
    simp only [pushString, Bool.not_eq_true] at hc ⊢
    simp [hc, h2]

open HTMLDomStrings in
/-- `handleText` preserves the scan-state invariant. -/
theorem scanInv_handleText (n : DomNode) (ignore : Bool) (st : ScanState)
    (h : ScanInv st) : ScanInv (handleText n ignore st) := by
  unfold handleText
  split
  · exact h
  · exact scanInv_extendString n n.value st h

open HTMLDomStrings in
/-- `handleTag` preserves the scan-state invariant. -/
theorem scanInv_handleTag (n : DomNode) (t : List Char) (ignore : Bool)
    (st : ScanState) (h : ScanInv st) : ScanInv (handleTag n t ignore st) := by
  unfold handleTag
  split
  · exact h
  · exact scanInv_extendString n t st h

open HTMLDomStrings in
/-- The scan loop preserves the scan-state invariant. -/
theorem scanInv_scanLoop (cfg : ScannerConfig) (cur : List DomNode) (ig : Bool)
    (stk : List (List DomNode × Bool)) (st : ScanState) (h : ScanInv st) :
    ScanInv (scanLoop cfg cur ig stk st) := by
  induction cur, ig, stk, st using scanLoop.induct cfg with
  | case1 ig st =>
      simpa only [scanLoop] using h
  | case2 ig ns ig' stk st ih =>
      rw [scanLoop]
      exact ih (scanInv_pushString st h)
  | case3 v rest ignore stk st ih =>
      rw [scanLoop]
      exact ih (scanInv_handleText (DomNode.text v) ignore st h)
  | case4 k attrs cs rest ignore stk st t heq ih =>
      rw [scanLoop, heq]
      exact ih (scanInv_handleTag (DomNode.elem k attrs cs) t ignore st h)
  | case5 k attrs cs rest ignore stk st heq ih =>
      rw [scanLoop, heq]
      refine ih ?_
      rw [handleContainer_st]
      exact scanInv_pushString st h

open HTMLDomStrings in
/-- Claim C1: for every call of the scanner's `find` on a host subtree and for
every string it returns, the sum of the consumed-length entries of that
string's provenance list equals the length of the string, and the returned
strings and provenance lists are in the same order and have the same count
(one provenance list per string, pointwise). -/
theorem find_provenance_lengths (cfg : ScannerConfig) (root : DomNode) :
    ((find cfg root).1).length = ((find cfg root).2).length ∧
    List.Forall₂ (fun s l => List.length s = provSum l)
      (find cfg root).1 (find cfg root).2 := by
  have h0 : ScanInv initState := ⟨rfl, List.Forall₂.nil⟩
  have h1 := scanInv_scanLoop cfg [root] false [] initState h0
  have h2 := scanInv_pushString _ h1
  exact ⟨h2.2.length_eq, h2.2⟩

open HTMLDomStrings in
/-- Claim C9: at a flush point, an in-progress string with no non-whitespace
character is not added to the results and its accumulated provenance list is
discarded with it — it is neither retained in the output nor merged into the
provenance of the next string; the string and provenance buffers are reset in
every case. -/
theorem pushString_discards_whitespace (st : ScanState)
    (h : st.string.any (fun c => !c.isWhitespace) = false) :
    (pushString st).strings = st.strings ∧
    (pushString st).nodes = st.nodes ∧
    (pushString st).string = [] ∧
    (pushString st).snodes = [] ∧
    (∀ st' : ScanState,
        (pushString st').string = [] ∧ (pushString st').snodes = []) := by
  refine ⟨?_, ?_, rfl, rfl, fun st' => ⟨rfl, rfl⟩⟩ <;>
    simp [pushString, h]

open HTMLDomStrings in
/-- Witness for C9: flushing a state whose in-progress string is a single
blank leaves the accumulated strings and provenance lists unchanged. -/
theorem pushString_discards_whitespace_witness :
    (stW.string.any (fun c => !c.isWhitespace) = false) ∧
    (pushString stW).strings = stW.strings ∧
    (pushString stW).nodes = stW.nodes ∧
    (pushString stW).string = [] ∧
    (pushString stW).snodes = [] :=
  ⟨by decide,
   (pushString_discards_whitespace stW (by decide)).1,
   (pushString_discards_whitespace stW (by decide)).2.1,
   (pushString_discards_whitespace stW (by decide)).2.2.1,
   (pushString_discards_whitespace stW (by decide)).2.2.2.1⟩

open HTMLDomStrings in
/-- Claim C4: when the scanner's container handling descends into a container
node, the new ignore flag equals (current ignore OR the class matches the
ignore pattern) AND NOT (the class matches the process pattern) — so a
process-class match re-enables scanning even inside an ignored region — the
saved stack entry carries the current ignore flag, and popping a stack entry
when a subtree is exhausted resumes with the saved ignore flag. -/
theorem handleContainer_ignore_flag (cfg : ScannerConfig) (k : String)
    (attrs : List (String × String)) (cs rest : List DomNode) (ignore : Bool)
    (stk : List (List DomNode × Bool)) (st : ScanState)
    (hchild : cs.isEmpty = false)
    (hmjx : attrTruthy (attrValue? attrs "data-MJX") = false)
    (hdesc : classMatch cfg.processClass (className attrs) = true ∨
             skipMatch cfg.skipTags k = false) :
    (handleContainer cfg k attrs cs rest ignore stk st).next = cs ∧
    (handleContainer cfg k attrs cs rest ignore stk st).ignore
        = ((ignore || classMatch cfg.ignoreClass (className attrs))
            && !(classMatch cfg.processClass (className attrs))) ∧
    (classMatch cfg.processClass (className attrs) = true →
        (handleContainer cfg k attrs cs rest ignore stk st).ignore = false) ∧
    (handleContainer cfg k attrs cs rest ignore stk st).stack
        = (if rest.isEmpty then stk else (rest, ignore) :: stk) ∧
    (∀ (b : Bool) (ns : List DomNode) (ig : Bool)
        (stk' : List (List DomNode × Bool)) (st' : ScanState),
        scanLoop cfg [] b ((ns, ig) :: stk') st'
          = scanLoop cfg ns ig stk' (pushString st')) := by
  have hcond : cs.isEmpty = false ∧ attrTruthy (attrValue? attrs "data-MJX") = false ∧
      (classMatch cfg.processClass (className attrs) = true ∨
       skipMatch cfg.skipTags k = false) := ⟨hchild, hmjx, hdesc⟩
  refine ⟨?_, ?_, ?_, ?_, ?_⟩
  · simp only [handleContainer, if_pos hcond]
  · simp only [handleContainer, if_pos hcond]
  · intro hp
    simp only [handleContainer, if_pos hcond]
    simp [hp]
  · simp only [handleContainer, if_pos hcond]
  · intro b ns ig stk' st'
    rw [scanLoop]

open HTMLDomStrings in
/-- Witness for C4: descending into a process-class container while already
ignoring re-enables scanning (the new ignore flag is false). -/
theorem handleContainer_ignore_flag_witness :
    ([DomNode.text ['x']].isEmpty = false) ∧
    attrTruthy (attrValue? [("class", "tex2jax_process")] "data-MJX") = false ∧
    classMatch defaultScannerOptions.processClass
      (className [("class", "tex2jax_process")]) = true ∧
    (handleContainer defaultScannerOptions "div" [("class", "tex2jax_process")]
        [DomNode.text ['x']] [] true [] initState).ignore = false :=
  ⟨by decide, by decide, by decide,
   (handleContainer_ignore_flag defaultScannerOptions "div" [("class", "tex2jax_process")]
      [DomNode.text ['x']] [] true [] initState (by decide) (by decide)
      (Or.inl (by decide))).2.2.1 (by decide)⟩

open HTMLDomStrings in
/-- Counterexample to claim C5 as stated: `exC5span` carries the reserved
attribute `data-mjx-error` (and no `data-MJX`), yet `find` on the enclosing
tree descends into it and returns the text of its subtree — the container
check inspects only `data-MJX`, not `data-mjx-error`. -/
theorem find_descends_into_mjx_error_node :
    exC5span.getAttribute "data-mjx-error" = some "oops" ∧
    exC5tree = DomNode.elem "div" [] [exC5span] ∧
    (find defaultScannerOptions exC5tree).1 = [['h', 'i']] := by
  refine ⟨by decide, rfl, ?_⟩
  simp only [find, exC5tree, exC5span]
  simp +decide [scanLoop, handleContainer, handleText, handleTag, extendString,
    pushString, includeLookup, defaultScannerOptions, classMatch, className,
    attrValue?, attrTruthy, skipMatch, tokenSplitAux, initState, List.find?,
    DomNode.value]

open HTMLDomStrings in
/-- Claim C5 (amended): for every container node (a node handled by the
container branch) carrying the reserved attribute `data-MJX` with a truthy
(nonempty) value, the scanner does not visit the node's children and
contributes none of its subtree's text to any returned string: the result is
the same for any replacement of the children, at every traversal position and
in particular for `find`. -/
theorem mjx_marked_container_skipped (cfg : ScannerConfig) (k : String)
    (attrs : List (String × String)) (cs cs' : List DomNode)
    (hk : includeLookup cfg k = none)
    (h : attrTruthy (attrValue? attrs "data-MJX") = true) :
    (∀ (rest : List DomNode) (ig : Bool) (stk : List (List DomNode × Bool))
        (st : ScanState),
        scanLoop cfg (DomNode.elem k attrs cs :: rest) ig stk st
          = scanLoop cfg (DomNode.elem k attrs cs' :: rest) ig stk st) ∧
    find cfg (DomNode.elem k attrs cs) = find cfg (DomNode.elem k attrs cs') := by
  have hc : ∀ (cs0 rest : List DomNode) (ig : Bool)
      (stk : List (List DomNode × Bool)) (st : ScanState),
      handleContainer cfg k attrs cs0 rest ig stk st
        = ⟨rest, ig, stk, pushString st⟩ := by
    intro cs0 rest ig stk st
    simp [handleContainer, h]
  have key : ∀ (rest : List DomNode) (ig : Bool)
      (stk : List (List DomNode × Bool)) (st : ScanState),
      scanLoop cfg (DomNode.elem k attrs cs :: rest) ig stk st
        = scanLoop cfg (DomNode.elem k attrs cs' :: rest) ig stk st := by
    intro rest ig stk st
    rw [scanLoop, scanLoop, hk, hc, hc]
  exact ⟨key, by simp only [find, key [] false [] initState]⟩

open HTMLDomStrings in
/-- Witness for C5 (amended): a span marked `data-MJX='true'` yields the same
scan whether it has a text child or no children at all. -/
theorem mjx_marked_container_skipped_witness :
    includeLookup defaultScannerOptions "span" = none ∧
    attrTruthy (attrValue? [("data-MJX", "true")] "data-MJX") = true ∧
    find defaultScannerOptions
        (DomNode.elem "span" [("data-MJX", "true")] [DomNode.text ['h', 'i']])
      = find defaultScannerOptions (DomNode.elem "span" [("data-MJX", "true")] []) :=
  ⟨by decide, by decide,
   (mjx_marked_container_skipped defaultScannerOptions "span" [("data-MJX", "true")]
      [DomNode.text ['h', 'i']] [] (by decide) (by decide)).2⟩

/-- Any error escaping the compile loop carries a truthy retry or restart
flag. -/
theorem compileLoop_escape_retriable (handler : MathItem → MathError → MathItem)
    (items : List MathItem) (e : MathError)
    (h : (MathDocument.compileLoop handler items).2 = some e) :
    (e.retry || e.restart) = true := by
  induction items with
  | nil => simp [MathDocument.compileLoop] at h
  | cons it rest ih =>
      cases hc : it.doCompile with
      | ok tree =>
          simp only [MathDocument.compileLoop, hc] at h
          exact ih h
      | error err =>
          simp only [MathDocument.compileLoop, hc] at h
          split at h
          · rename_i hr
            obtain rfl : err = e := by simpa using h
            exact hr
          · exact ih (by simpa using h)

/-- With no aborting item, the compile loop maps every item through the
per-item step and escapes no error. -/
theorem compileLoop_no_abort (handler : MathItem → MathError → MathItem)
    (items : List MathItem) (h : ∀ it ∈ items, aborting it = false) :
    MathDocument.compileLoop handler items = (items.map (stepItem handler), none) := by
  induction items with
  | nil => rfl
  | cons it rest ih =>
      have hit := h it (List.mem_cons_self it rest)
      have hrest : ∀ a ∈ rest, aborting a = false :=
        fun a ha => h a (List.mem_cons_of_mem _ ha)
      cases hc : it.doCompile with
      | ok tree =>
          simp [MathDocument.compileLoop, hc, stepItem, ih hrest]
      | error err =>
          have hf : (err.retry || err.restart) = false := by
            simpa [aborting, hc] using hit
          simp [MathDocument.compileLoop, hc, stepItem, hf, ih hrest]

/-- The compile loop stops at the first aborting item: the prefix is mapped
through the per-item step, the aborting item and the whole suffix are left
untouched, and the aborting item's error escapes. -/
theorem compileLoop_first_abort (handler : MathItem → MathError → MathItem)
    (pre : List MathItem) (it : MathItem) (post : List MathItem)
    (hpre : ∀ a ∈ pre, aborting a = false) (hab : aborting it = true) :
    ∃ e, it.doCompile = Except.error e ∧ (e.retry || e.restart) = true ∧
      MathDocument.compileLoop handler (pre ++ it :: post)
        = (pre.map (stepItem handler) ++ it :: post, some e) := by
  induction pre with
  | nil =>
      cases hc : it.doCompile with
      | ok tree => simp [aborting, hc] at hab
      | error err =>
          have hr : (err.retry || err.restart) = true := by
            simpa [aborting, hc] using hab
          exact ⟨err, rfl, hr, by simp [MathDocument.compileLoop, hc, hr]⟩
  | cons a pre' ih =>
      have ha := hpre a (List.mem_cons_self a pre')
      have hpre' : ∀ b ∈ pre', aborting b = false :=
        fun b hb => hpre b (List.mem_cons_of_mem _ hb)
      obtain ⟨e, he, hr, heq⟩ := ih hpre'
      refine ⟨e, he, hr, ?_⟩
      cases hc : a.doCompile with
      | ok tree =>
          simp [MathDocument.compileLoop, hc, stepItem, heq]
      | error err =>
          have hf : (err.retry || err.restart) = false := by
            simpa [aborting, hc] using ha
          simp [MathDocument.compileLoop, hc, stepItem, hf, heq]

/-- Claim C2: during `compile()`, iterating the MathList in forward order, a
per-item failure flagged retry or restart propagates out uncaught, aborting
the remaining pass with the suffix untouched and the compile processed flag
still false; any other per-item failure is isolated — the configured
compileError handler is applied and the error is recorded on the item, and
the pass continues — and the compile processed flag is set only after a full
pass with no aborting error; the default handler synthesizes a minimal
'Math input error' tree carrying the item's display-mode flag. -/
theorem compile_error_handling {H : Type} (handler : MathItem → MathError → MathItem)
    (doc : MathDocument H) (h : doc.processed.compile = false) :
    (∀ e, (MathDocument.compile handler doc).2 = some e →
        (e.retry || e.restart) = true ∧
        (MathDocument.compile handler doc).1.processed.compile = false) ∧
    (∀ pre it post, doc.math = pre ++ it :: post →
        (∀ a ∈ pre, aborting a = false) → aborting it = true →
        ∃ e, it.doCompile = Except.error e ∧
          MathDocument.compile handler doc
            = ({ doc with math := pre.map (stepItem handler) ++ it :: post }, some e)) ∧
    ((∀ it ∈ doc.math, aborting it = false) →
        MathDocument.compile handler doc
          = ({ doc with math := doc.math.map (stepItem handler),
                        processed := { doc.processed with compile := true } }, none)) ∧
    (∀ it err, (MathDocument.compileError it err).root
        = some (if it.display
            then MmlNode.node "math"
                [("data-mjx-error", err.message), ("display", "block")]
                [MmlNode.node "merror" []
                  [MmlNode.node "mtext" [] [MmlNode.textNode "Math input error"]]]
            else MmlNode.node "math" [("data-mjx-error", err.message)]
                [MmlNode.node "merror" []
                  [MmlNode.node "mtext" [] [MmlNode.textNode "Math input error"]]])) := by
  refine ⟨?_, ?_, ?_, ?_⟩
  · intro e he
    have h2 : (MathDocument.compileLoop handler doc.math).2 = some e := by
      by_contra hne
      cases h2 : (MathDocument.compileLoop handler doc.math).2 with
      | none => simp [MathDocument.compile, h, h2] at he
      | some e' =>
          simp [MathDocument.compile, h, h2] at he
          exact hne (by rw [h2, he])
    refine ⟨compileLoop_escape_retriable handler doc.math e h2, ?_⟩
    simp [MathDocument.compile, h, h2, h]
  · intro pre it post hsplit hpre hab
    obtain ⟨e, he, hr, heq⟩ := compileLoop_first_abort handler pre it post hpre hab
    refine ⟨e, he, ?_⟩
    simp [MathDocument.compile, h, hsplit, heq]
  · intro hall
    simp [MathDocument.compile, h, compileLoop_no_abort handler doc.math hall]
  · intro it err
    by_cases hd : it.display = true <;>
      simp [MathDocument.compileError, MmlNode.setAttr, hd]

/-- Witness for C2: a document with one succeeding and one plainly failing
item completes the pass with the compile flag set and no escaping error. -/
theorem compile_error_handling_witness :
    docW2.processed.compile = false ∧
    (∀ it ∈ docW2.math, aborting it = false) ∧
    MathDocument.compile MathDocument.compileError docW2
      = ({ docW2 with math := docW2.math.map (stepItem MathDocument.compileError),
                      processed := { docW2.processed with compile := true } }, none) :=
  ⟨rfl, by decide,
   (compile_error_handling MathDocument.compileError docW2 rfl).2.2.1 (by decide)⟩

/-- Claim C3: `state(target, restore)` sets every item's state to the target
and clears exactly the processed flags of the stages strictly above the
target — updateDocument iff target < Inserted, typeset and getMetrics iff
target < Typeset, compile iff target < Compiled — while flags at or below the
target (including findMath) are left unchanged; in particular
`state(Compiled, false)` after a full run clears typeset, getMetrics and
updateDocument but leaves compile true. -/
theorem state_rollback {H : Type} (doc : MathDocument H) (target : Nat)
    (restore : Bool) :
    (MathDocument.state doc target restore).math
        = doc.math.map (fun it => { it with state := target }) ∧
    (MathDocument.state doc target restore).processed.updateDocument
        = (if target < STATE.INSERTED then false else doc.processed.updateDocument) ∧
    (MathDocument.state doc target restore).processed.typeset
        = (if target < STATE.TYPESET then false else doc.processed.typeset) ∧
    (MathDocument.state doc target restore).processed.getMetrics
        = (if target < STATE.TYPESET then false else doc.processed.getMetrics) ∧
    (MathDocument.state doc target restore).processed.compile
        = (if target < STATE.COMPILED then false else doc.processed.compile) ∧
    (MathDocument.state doc target restore).processed.findMath
        = doc.processed.findMath ∧
    (doc.processed.compile = true →
        (MathDocument.state doc STATE.COMPILED false).processed.compile = true ∧
        (MathDocument.state doc STATE.COMPILED false).processed.typeset = false ∧
        (MathDocument.state doc STATE.COMPILED false).processed.getMetrics = false ∧
        (MathDocument.state doc STATE.COMPILED false).processed.updateDocument = false) := by
  refine ⟨rfl, ?_, ?_, ?_, ?_, ?_, ?_⟩ <;>
    simp only [MathDocument.state, STATE.INSERTED, STATE.TYPESET, STATE.COMPILED]
  · split_ifs <;> simp_all
  · split_ifs <;> simp_all
  · split_ifs <;> simp_all
  · split_ifs <;> simp_all
  · split_ifs <;> simp_all
  · intro hc
    refine ⟨?_, ?_, ?_, ?_⟩ <;> simp [hc]

/-- Witness for C3: rolling the fully processed document back to the Compiled
state clears typeset, getMetrics and updateDocument but keeps compile. -/
theorem state_rollback_witness :
    docW3.processed.compile = true ∧
    (MathDocument.state docW3 STATE.COMPILED false).processed.compile = true ∧
    (MathDocument.state docW3 STATE.COMPILED false).processed.typeset = false ∧
    (MathDocument.state docW3 STATE.COMPILED false).processed.getMetrics = false ∧
    (MathDocument.state docW3 STATE.COMPILED false).processed.updateDocument = false :=
  ⟨rfl,
   ((state_rollback docW3 STATE.COMPILED false).2.2.2.2.2.2 rfl).1,
   ((state_rollback docW3 STATE.COMPILED false).2.2.2.2.2.2 rfl).2.1,
   ((state_rollback docW3 STATE.COMPILED false).2.2.2.2.2.2 rfl).2.2.1,
   ((state_rollback docW3 STATE.COMPILED false).2.2.2.2.2.2 rfl).2.2.2⟩

/-- Claim C6: `updateDocument()` is idempotent — with the processed flag set,
a call performs no item updates; when it runs, it visits the items in exactly
the reverse of document order, folding each item's splice over the host
document, then sets the updateDocument processed flag; a second call is
always a no-op. -/
theorem updateDocument_reverse_idempotent {H : Type} (upd : MathItem → H → H)
    (doc : MathDocument H) :
    (doc.processed.updateDocument = true →
        MathDocument.updateDocument upd doc = doc) ∧
    (doc.processed.updateDocument = false →
        (MathDocument.updateDocument upd doc).document
            = doc.math.reverse.foldl (fun d it => upd it d) doc.document ∧
        (MathDocument.updateDocument upd doc).processed.updateDocument = true ∧
        (MathDocument.updateDocument upd doc).math = doc.math) ∧
    MathDocument.updateDocument upd (MathDocument.updateDocument upd doc)
        = MathDocument.updateDocument upd doc := by
  by_cases hu : doc.processed.updateDocument = true <;>
    simp [MathDocument.updateDocument, hu]

/-- Witness for C6: three items with marks 1, 2, 3 in document order are
spliced in the order 3, 2, 1. -/
theorem updateDocument_reverse_idempotent_witness :
    docW6.processed.updateDocument = false ∧
    (MathDocument.updateDocument updW docW6).document = [3, 2, 1] ∧
    (MathDocument.updateDocument updW docW6).processed.updateDocument = true := by
  have h := (updateDocument_reverse_idempotent updW docW6).2.1 rfl
  exact ⟨rfl, by rw [h.1]; decide, h.2.1⟩

/-- Claim C10: both default error fallbacks record the original error message
in a `data-mjx-error` attribute on the synthesized output: `compileError` on
the root of the synthesized 'Math input error' tree (with display='block'
exactly when the item is in display mode), and `typesetError` on the
synthesized 'Math output error' host span. -/
theorem error_fallbacks_record_message (it : MathItem) (err : MathError) :
    ((MathDocument.compileError it err).root.bind
        (fun r => r.getAttr "data-mjx-error")) = some err.message ∧
    ((MathDocument.compileError it err).root.bind (fun r => r.getAttr "display"))
        = (if it.display then some "block" else none) ∧
    (MathDocument.typesetError it err).typesetRoot
        = some (HNode.node "span" [("data-mjx-error", err.message)]
            [HNode.text "Math output error"]) ∧
    (HNode.node "span" [("data-mjx-error", err.message)]
        [HNode.text "Math output error"]).getAttr "data-mjx-error"
        = some err.message := by
  by_cases hd : it.display = true <;>
    simp [MathDocument.compileError, MathDocument.typesetError, MmlNode.setAttr,
      MmlNode.getAttr, HNode.getAttr, List.find?, hd]

/-- Claim C7: in the atop layout (`getUVQ`) the initial offsets are num1 and
denom1 for display and num3 and denom2 for inline, the minimum separation is
7 times the rule thickness for display and 3 times for inline, and whenever
the raw gap q is below the minimum p, both offsets are increased by exactly
(p − q)/2, so that the resulting gap (and the returned separation) equals the
minimum exactly; otherwise the offsets and separation are returned as
computed. -/
theorem getUVQ_atop_layout (tex : FontParams) (nbox dbox : BBox) (display : Bool) :
    (atopRawGap tex nbox dbox display < atopMinSep tex display →
        (getUVQ tex nbox dbox display).u
            = atopU0 tex display
              + (atopMinSep tex display - atopRawGap tex nbox dbox display) / 2 ∧
        (getUVQ tex nbox dbox display).v
            = atopV0 tex display
              + (atopMinSep tex display - atopRawGap tex nbox dbox display) / 2 ∧
        ((getUVQ tex nbox dbox display).u - nbox.d * nbox.scale)
            - (dbox.h * dbox.scale - (getUVQ tex nbox dbox display).v)
            = atopMinSep tex display ∧
        (getUVQ tex nbox dbox display).q = atopMinSep tex display) ∧
    (¬ atopRawGap tex nbox dbox display < atopMinSep tex display →
        (getUVQ tex nbox dbox display).u = atopU0 tex display ∧
        (getUVQ tex nbox dbox display).v = atopV0 tex display ∧
        (getUVQ tex nbox dbox display).q = atopRawGap tex nbox dbox display) := by
  simp only [getUVQ, atopRawGap, atopMinSep, atopU0, atopV0]
  constructor
  · intro hlt
    rw [if_pos hlt]
    refine ⟨rfl, rfl, by ring, rfl⟩
  · intro hge
    rw [if_neg hge]
    exact ⟨rfl, rfl, rfl⟩

/-- Witness for C7: numerator descent 1 and denominator ascent 1 with zero
baseline constants give a raw gap of −2, below the display minimum 7; both
offsets are pushed apart and the returned separation equals the minimum. -/
theorem getUVQ_atop_layout_witness :
    atopRawGap texW nboxW dboxW true < atopMinSep texW true ∧
    (getUVQ texW nboxW dboxW true).q = atopMinSep texW true ∧
    ((getUVQ texW nboxW dboxW true).u - nboxW.d * nboxW.scale)
        - (dboxW.h * dboxW.scale - (getUVQ texW nboxW dboxW true).v)
        = atopMinSep texW true := by
  have hlt : atopRawGap texW nboxW dboxW true < atopMinSep texW true := by
    norm_num [atopRawGap, atopMinSep, atopU0, atopV0, texW, nboxW, dboxW]
  have h := (getUVQ_atop_layout texW nboxW dboxW true).1 hlt
  exact ⟨hlt, h.2.2.2, h.2.2.1⟩

/-- Claim C8: at construction of a quoted-text (ms) wrapper, an lquote or
rquote with no explicit override defaults to the plain double quote and is
replaced by the typographic left (U+201C) or right (U+201D) quotation mark
unless the wrapper's variant is monospace; an explicit override is kept; then
a synthesized left-quote text wrapper is prepended and a synthesized
right-quote text wrapper is appended to the existing child sequence. -/
theorem ms_quote_construction {W : Type} (createText : String → W)
    (variant : String) (node : MsNode) (children : List W) :
    (node.lquote = none → node.lquote.getD msDefaultQuote = "\"") ∧
    (node.rquote = none → node.rquote.getD msDefaultQuote = "\"") ∧
    (node.lquote = none → variant ≠ "monospace" → (msQuotes variant node).1 = "“") ∧
    (node.rquote = none → variant ≠ "monospace" → (msQuotes variant node).2 = "”") ∧
    (variant = "monospace" →
        msQuotes variant node
          = (node.lquote.getD msDefaultQuote, node.rquote.getD msDefaultQuote)) ∧
    (∀ s, node.lquote = some s → (msQuotes variant node).1 = s) ∧
    (∀ s, node.rquote = some s → (msQuotes variant node).2 = s) ∧
    msChildNodes createText variant node children
        = createText (msQuotes variant node).1
            :: children ++ [createText (msQuotes variant node).2] := by
  refine ⟨?_, ?_, ?_, ?_, ?_, ?_, ?_, rfl⟩
  · intro hl; simp [hl, msDefaultQuote]
  · intro hr; simp [hr, msDefaultQuote]
  · intro hl hm; simp [msQuotes, hl, hm, msDefaultQuote]
  · intro hr hm; simp [msQuotes, hr, hm, msDefaultQuote]
  · intro hm; simp [msQuotes, hm]
  · intro s hl
    by_cases hm : variant = "monospace" <;> simp [msQuotes, hl, hm, msDefaultQuote]
  · intro s hr
    by_cases hm : variant = "monospace" <;> simp [msQuotes, hr, hm, msDefaultQuote]

/-- Witness for C8: with no overrides and a non-monospace variant, the
constructed child sequence is the left typographic quote, the original
children, then the right typographic quote. -/
theorem ms_quote_construction_witness :
    (MsNode.mk none none).lquote = none ∧
    ("normal" : String) ≠ "monospace" ∧
    msQuotes "normal" (MsNode.mk none none) = ("“", "”") ∧
    msChildNodes (fun s => s) "normal" (MsNode.mk none none) ["x"]
        = ["“", "x", "”"] := by
  have h := ms_quote_construction (fun s : String => s) "normal" (MsNode.mk none none) ["x"]
  refine ⟨rfl, by decide, ?_, ?_⟩
  · have h1 := h.2.2.1 rfl (by decide)
    have h2 := h.2.2.2.1 rfl (by decide)
    cases hq : msQuotes "normal" (MsNode.mk none none) with
    | mk a b =>
        rw [hq] at h1 h2
        simp at h1 h2
        simp [h1, h2]
  · rw [h.2.2.2.2.2.2.2]
    decide
